import Mathlib

/-!
Verification development for the Mice Mobility Analyser repository.

The repository consists of two Python sources, src/main.py (playback mode)
and src/frame_constructor_GUI.py (editing mode). The definitions below are
shallow embeddings of the functions of those files: Python floats are
modelled as real numbers where transcendental functions occur and as
rationals elsewhere, Python ints as integers, and the mutable object state
of the GUI as explicit state records. Each definition's doc comment names
the source function it embeds.
-/

/- ===================== Geometry engine (section 4.1) ===================== -/

/-- Truncation toward zero of a real number, as performed by numpy's
astype conversion from float64 to int32 (C-style truncation) in
get_rotated_rectangle_points. -/
noncomputable def truncR (x : ℝ) : ℤ := if 0 ≤ x then ⌊x⌋ else ⌈x⌉

/-- Embedding of get_rotated_rectangle_points (src/main.py lines 65-100 and
the identical method at src/frame_constructor_GUI.py lines 545-573).
The four corners relative to the center are built in the order top-left,
top-right, bottom-right, bottom-left from the raw, possibly inverted,
top_left and bottom_right values; each is rotated by the matrix
[[cos, -sin], [sin, cos]] (the numpy expression corners @ R.T sends (x, y)
to (x cos - y sin, x sin + y cos)), translated back by the center, and
truncated toward zero. -/
noncomputable def get_rotated_rectangle_points (top_left bottom_right : ℤ × ℤ)
    (rotation_degrees : ℝ) : List (ℤ × ℤ) :=
  let x1 : ℝ := top_left.1
  let y1 : ℝ := top_left.2
  let x2 : ℝ := bottom_right.1
  let y2 : ℝ := bottom_right.2
  let center_x : ℝ := (x1 + x2) / 2
  let center_y : ℝ := (y1 + y2) / 2
  let rotation_rad : ℝ := rotation_degrees * Real.pi / 180
  let cos_rot : ℝ := Real.cos rotation_rad
  let sin_rot : ℝ := Real.sin rotation_rad
  let rot : ℝ × ℝ → ℤ × ℤ := fun q =>
    (truncR (q.1 * cos_rot - q.2 * sin_rot + center_x),
     truncR (q.1 * sin_rot + q.2 * cos_rot + center_y))
  [rot (x1 - center_x, y1 - center_y),
   rot (x2 - center_x, y1 - center_y),
   rot (x2 - center_x, y2 - center_y),
   rot (x1 - center_x, y2 - center_y)]

theorem truncR_intCast (n : ℤ) : truncR (n : ℝ) = n := by
  unfold truncR
  split <;> simp

theorem truncR_eq_of_eq_intCast {x : ℝ} {n : ℤ} (h : x = n) : truncR x = n := by
  rw [h, truncR_intCast]

theorem rot0_eval (tl br : ℤ × ℤ) :
    get_rotated_rectangle_points tl br 0 =
      [tl, (br.1, tl.2), br, (tl.1, br.2)] := by
  obtain ⟨x1, y1⟩ := tl
  obtain ⟨x2, y2⟩ := br
  simp only [get_rotated_rectangle_points]
  rw [show (0 : ℝ) * Real.pi / 180 = 0 by ring, Real.cos_zero, Real.sin_zero]
  simp only [List.cons.injEq, Prod.mk.injEq, and_true]
  exact ⟨⟨truncR_eq_of_eq_intCast (by ring), truncR_eq_of_eq_intCast (by ring)⟩,
    ⟨truncR_eq_of_eq_intCast (by ring), truncR_eq_of_eq_intCast (by ring)⟩,
    ⟨truncR_eq_of_eq_intCast (by ring), truncR_eq_of_eq_intCast (by ring)⟩,
    ⟨truncR_eq_of_eq_intCast (by ring), truncR_eq_of_eq_intCast (by ring)⟩⟩

theorem rot180_eval (tl br : ℤ × ℤ) :
    get_rotated_rectangle_points tl br 180 =
      [br, (tl.1, br.2), tl, (br.1, tl.2)] := by
  obtain ⟨x1, y1⟩ := tl
  obtain ⟨x2, y2⟩ := br
  simp only [get_rotated_rectangle_points]
  rw [show (180 : ℝ) * Real.pi / 180 = Real.pi by ring, Real.cos_pi, Real.sin_pi]
  simp only [List.cons.injEq, Prod.mk.injEq, and_true]
  exact ⟨⟨truncR_eq_of_eq_intCast (by ring), truncR_eq_of_eq_intCast (by ring)⟩,
    ⟨truncR_eq_of_eq_intCast (by ring), truncR_eq_of_eq_intCast (by ring)⟩,
    ⟨truncR_eq_of_eq_intCast (by ring), truncR_eq_of_eq_intCast (by ring)⟩,
    ⟨truncR_eq_of_eq_intCast (by ring), truncR_eq_of_eq_intCast (by ring)⟩⟩

theorem rot_period_eval (tl br : ℤ × ℤ) (θ : ℝ) :
    get_rotated_rectangle_points tl br (θ + 360) =
      get_rotated_rectangle_points tl br θ := by
  simp only [get_rotated_rectangle_points]
  rw [show (θ + 360) * Real.pi / 180 = θ * Real.pi / 180 + 2 * Real.pi by ring,
    Real.cos_add_two_pi, Real.sin_add_two_pi]

/-- C1: for rotation 0 the corner operation returns the four axis-aligned
corners built from the raw top_left and bottom_right values in the order
top-left, top-right, bottom-right, bottom-left, unchanged (integer inputs
are reproduced exactly by the truncation toward zero); in particular the
box (50,50)-(150,150) yields [(50,50),(150,50),(150,150),(50,150)]. -/
theorem claim_C1_zero_rotation_corners :
    (∀ tl br : ℤ × ℤ,
        get_rotated_rectangle_points tl br 0 =
          [tl, (br.1, tl.2), br, (tl.1, br.2)]) ∧
    get_rotated_rectangle_points (50, 50) (150, 150) 0 =
      [(50, 50), (150, 50), (150, 150), (50, 150)] :=
  ⟨rot0_eval, by rw [rot0_eval]⟩

/-- C8: the corner operation is 360-degree periodic (same output for θ and
θ + 360 for every rectangle), and at 180 degrees it returns the 0-degree
corner list rotated by two positions, i.e. each corner is exchanged with
its diagonally opposite one. -/
theorem claim_C8_rotation_period_and_180 :
    (∀ (tl br : ℤ × ℤ) (θ : ℝ),
        get_rotated_rectangle_points tl br (θ + 360) =
          get_rotated_rectangle_points tl br θ) ∧
    (∀ tl br : ℤ × ℤ,
        get_rotated_rectangle_points tl br 180 =
          (get_rotated_rectangle_points tl br 0).rotate 2) := by
  refine ⟨rot_period_eval, fun tl br => ?_⟩
  rw [rot0_eval, rot180_eval]
  rfl

/- ===================== Color assignment (section 4.2) ===================== -/

/-- Truncation toward zero of a rational number, the behavior of Python's
int() builtin applied to a float: floor for nonnegative arguments and
ceiling for negative ones. -/
def int_trunc (q : ℚ) : ℤ := if 0 ≤ q then ⌊q⌋ else ⌈q⌉

/-- Embedding of colorsys.hsv_to_rgb from the Python standard library,
which both color generators call. It is piecewise rational, so it is
modelled exactly over the rationals. -/
def hsv_to_rgb (h s v : ℚ) : ℚ × ℚ × ℚ :=
  if s = 0 then (v, v, v) else
  let i0 : ℤ := int_trunc (h * 6)
  let f : ℚ := h * 6 - i0
  let p : ℚ := v * (1 - s)
  let q : ℚ := v * (1 - s * f)
  let t : ℚ := v * (1 - s * (1 - f))
  let i : ℤ := i0 % 6
  if i = 0 then (v, t, p)
  else if i = 1 then (q, v, p)
  else if i = 2 then (p, v, t)
  else if i = 3 then (p, q, v)
  else if i = 4 then (t, p, v)
  else (q, p, v)

/-- Embedding of generate_colors (src/main.py lines 49-63), the batch
generator used at configuration load: hue i / num_colors, saturation
alternating 0.8 and 1.0 with the parity of i, value cycling 0.9, 1.0, 1.1
with i mod 3 and clamped to 1.0, converted HSV to RGB and reordered to BGR
with each channel truncated to an integer in 0..255. -/
def generate_colors (num_colors : ℕ) : List (ℤ × ℤ × ℤ) :=
  (List.range num_colors).map fun (i : ℕ) =>
    let hue : ℚ := (i : ℚ) / (num_colors : ℚ)
    let saturation : ℚ := 0.8 + (↑(i % 2) : ℚ) * 0.2
    let value : ℚ := 0.9 + (↑(i % 3) : ℚ) * 0.1
    let rgb := hsv_to_rgb hue saturation (min value 1)
    (int_trunc (rgb.2.2 * 255), int_trunc (rgb.2.1 * 255), int_trunc (rgb.1 * 255))

/-- A zone record ("frame" in the source's vocabulary): the fields of one
entry of the frames array of config.json, as read by both programs. -/
structure Zone where
  name : String
  top_left : ℤ × ℤ
  bottom_right : ℤ × ℤ
  rotation : ℤ
  color : Option (ℤ × ℤ × ℤ)
deriving DecidableEq

/-- A zone lacks a color exactly when its color entry is null
(frame.get applied to the color key is None in the source). -/
def colorless (z : Zone) : Bool := z.color.isNone

/-- The second loop of load_config's frames processing (src/main.py lines
159-162): walk the frames in order and give each colorless frame the next
color of the auto generated list, consuming it. Python indexes the color
list with a running counter; running out of colors would raise an
IndexError, which load_config makes unreachable by generating exactly as
many colors as there are colorless frames, so the empty-list branch keeps
the frame unchanged. -/
def assign_auto_colors : List Zone → List (ℤ × ℤ × ℤ) → List Zone
  | [], _ => []
  | z :: zs, cs =>
    if z.color.isNone then
      match cs with
      | c :: cs' => { z with color := some c } :: assign_auto_colors zs cs'
      | [] => z :: assign_auto_colors zs []
    else
      z :: assign_auto_colors zs cs

/-- Embedding of the frames processing of load_config (src/main.py lines
144-162): count the frames whose color is null, and if there are any,
batch-generate that many colors and assign them to exactly those frames
in encounter order. -/
def load_config_frames (frames : List Zone) : List Zone :=
  if frames.countP colorless = 0 then frames
  else assign_auto_colors frames (generate_colors (frames.countP colorless))

/-- The number of colorless frames strictly before position j, which is
the index into the auto generated color list that the running counter of
load_config has reached when it meets position j. -/
def colorless_rank (frames : List Zone) (j : ℕ) : ℕ :=
  ((frames.take j).filter colorless).length

theorem colorless_rank_zero (frames : List Zone) : colorless_rank frames 0 = 0 := rfl

theorem colorless_rank_cons (z : Zone) (zs : List Zone) (j : ℕ) :
    colorless_rank (z :: zs) (j + 1) =
      colorless_rank zs j + (if colorless z then 1 else 0) := by
  simp only [colorless_rank, List.take_succ_cons, List.filter_cons]
  split <;> simp [Nat.add_comm]

theorem assign_auto_colors_getElem (frames : List Zone)
    (cs : List (ℤ × ℤ × ℤ)) (j : ℕ) :
    (assign_auto_colors frames cs)[j]? =
      (frames[j]?).map (fun z =>
        if z.color.isNone then { z with color := cs[colorless_rank frames j]? }
        else z) := by
  induction frames generalizing cs j with
  | nil => simp [assign_auto_colors]
  | cons z zs ih =>
    obtain ⟨nm, tl, br, rot, c⟩ := z
    rcases c with _ | col
    · cases cs with
      | nil =>
        cases j with
        | zero => simp [assign_auto_colors, colorless_rank_zero]
        | succ j => simp [assign_auto_colors, colorless_rank_cons, colorless, ih]
      | cons c0 cs' =>
        cases j with
        | zero => simp [assign_auto_colors, colorless_rank_zero]
        | succ j => simp [assign_auto_colors, colorless_rank_cons, colorless, ih]
    · cases j with
      | zero => simp [assign_auto_colors, colorless_rank_zero]
      | succ j => simp [assign_auto_colors, colorless_rank_cons, colorless, ih]

theorem generate_colors_length (n : ℕ) : (generate_colors n).length = n := by
  unfold generate_colors
  rw [List.length_map, List.length_range]

theorem load_config_frames_getElem (frames : List Zone) (j : ℕ) :
    (load_config_frames frames)[j]? =
      (frames[j]?).map (fun z =>
        if z.color.isNone then
          { z with color :=
              (generate_colors (frames.countP colorless))[colorless_rank frames j]? }
        else z) := by
  unfold load_config_frames
  split
  case isTrue h =>
    cases hj : frames[j]? with
    | none => rfl
    | some z =>
      obtain ⟨hlt, rfl⟩ := List.getElem?_eq_some_iff.mp hj
      have hz : ¬ (colorless frames[j] = true) :=
        List.countP_eq_zero.mp h frames[j] (List.getElem_mem hlt)
      simp only [colorless, Option.isNone_iff_eq_none] at hz
      simp [hz]
  case isFalse h => exact assign_auto_colors_getElem frames _ j

theorem generate_colors_one : generate_colors 1 = [(45, 45, 229)] := by
  unfold generate_colors
  rw [show List.range 1 = [0] by rfl]
  simp only [List.map]
  norm_num [hsv_to_rgb, int_trunc]

theorem generate_colors_two :
    generate_colors 2 = [(45, 45, 229), (255, 255, 0)] := by
  unfold generate_colors
  rw [show List.range 2 = [0, 1] by rfl]
  simp only [List.map]
  norm_num [hsv_to_rgb, int_trunc]

/-- C3: the batch color generator of load_config assigns colors only to
the zones whose color is null, each receiving the entry of the batch list
indexed by its rank inside the colorless subset (so assignment follows the
colorless subset's encounter order), and leaves every zone that already
had a color unchanged; in the concrete scenario of three zones of which
two are colorless, exactly those two receive the hue 0 and hue 1/2 batch
colors and the third keeps its color. -/
theorem claim_C3_batch_color_assignment :
    (∀ (frames : List Zone) (j : ℕ),
        (load_config_frames frames)[j]? =
          (frames[j]?).map (fun z =>
            if z.color.isNone then
              { z with color :=
                  (generate_colors
                      (frames.countP colorless))[colorless_rank frames j]? }
            else z)) ∧
    load_config_frames
        [⟨"A", (0, 0), (10, 10), 0, none⟩,
         ⟨"B", (1, 1), (2, 2), 0, some (9, 8, 7)⟩,
         ⟨"C", (3, 3), (4, 4), 0, none⟩] =
      [⟨"A", (0, 0), (10, 10), 0, some (45, 45, 229)⟩,
       ⟨"B", (1, 1), (2, 2), 0, some (9, 8, 7)⟩,
       ⟨"C", (3, 3), (4, 4), 0, some (255, 255, 0)⟩] := by
  refine ⟨load_config_frames_getElem, ?_⟩
  simp [load_config_frames, List.countP_cons, List.countP_nil, colorless,
    assign_auto_colors, generate_colors_two]

theorem assign_auto_colors_isSome (frames : List Zone)
    (cs : List (ℤ × ℤ × ℤ)) (h : frames.countP colorless ≤ cs.length) :
    ∀ z ∈ assign_auto_colors frames cs, z.color.isSome := by
  induction frames generalizing cs with
  | nil => intro z hz; simp [assign_auto_colors] at hz
  | cons w ws ih =>
    intro z hz
    rcases hwc : w.color with _ | col
    · cases cs with
      | nil =>
        rw [List.countP_cons] at h
        simp [colorless, hwc] at h
      | cons c cs' =>
        rw [List.countP_cons] at h
        simp only [colorless, hwc, Option.isNone_none, if_true, List.length_cons] at h
        simp only [assign_auto_colors, hwc, Option.isNone_none, if_true] at hz
        rcases List.mem_cons.mp hz with rfl | hz'
        · rfl
        · exact ih cs' (by omega) z hz'
    · simp only [assign_auto_colors, hwc, Option.isNone_some, Bool.false_eq_true,
        if_false] at hz
      rcases List.mem_cons.mp hz with rfl | hz'
      · simp [hwc]
      · refine ih cs ?_ z hz'
        rw [List.countP_cons] at h
        simp only [colorless, hwc, Option.isNone_some] at h
        omega

/-- C10: every zone of a successfully loaded configuration carries a color
after load_config's frames processing: the batch generator is total over
the colorless subset, so no zone reaches the compositor with a null
color. -/
theorem claim_C10_every_loaded_zone_colored :
    ∀ (frames : List Zone) (z : Zone),
      z ∈ load_config_frames frames → z.color.isSome := by
  intro frames z hz
  unfold load_config_frames at hz
  split at hz
  case isTrue h =>
    have hnc := List.countP_eq_zero.mp h z hz
    rcases hc : z.color with _ | c
    · exact absurd (by simp [colorless, hc]) hnc
    · simp [hc]
  case isFalse h =>
    exact assign_auto_colors_isSome frames _
      (by rw [generate_colors_length]) z hz

/-- Witness for C10 at a concrete one-zone configuration. -/
theorem claim_C10_witness :
    (⟨"A", (0, 0), (10, 10), 0, some (45, 45, 229)⟩ : Zone).color.isSome :=
  claim_C10_every_loaded_zone_colored [⟨"A", (0, 0), (10, 10), 0, none⟩] _ (by
    simp [load_config_frames, List.countP_cons, List.countP_nil, colorless,
      assign_auto_colors, generate_colors_one])

/- =================== Viewport zoom state (section 4.4) =================== -/

/-- Embedding of zoom_in (src/frame_constructor_GUI.py lines 243-247):
multiply the zoom factor by 1.2, clamped to at most 5.0. -/
def zoom_in (z : ℚ) : ℚ := min (z * 1.2) 5.0

/-- Embedding of zoom_out (src/frame_constructor_GUI.py lines 249-253):
divide the zoom factor by 1.2, clamped to at least 0.2. -/
def zoom_out (z : ℚ) : ℚ := max (z / 1.2) 0.2

/-- The zoom actions reachable from the editor's buttons and mouse wheel:
zoom in, zoom out, and the zoom part of reset_zoom (lines 255-261). -/
inductive ZoomCmd | zin | zout | zreset

/-- One zoom action applied to the current zoom factor; reset_zoom sets
the factor back to 1.0. -/
def zoom_step (z : ℚ) : ZoomCmd → ℚ
  | .zin => zoom_in z
  | .zout => zoom_out z
  | .zreset => 1.0

/-- The zoom factor after a finite sequence of zoom actions, starting
from the initial factor 1.0 set in the constructor. -/
def zoom_after (cmds : List ZoomCmd) : ℚ := cmds.foldl zoom_step 1.0

theorem zoom_step_bounds {z : ℚ} (h1 : 0.2 ≤ z) (h2 : z ≤ 5.0)
    (c : ZoomCmd) : 0.2 ≤ zoom_step z c ∧ zoom_step z c ≤ 5.0 := by
  cases c with
  | zin =>
    unfold zoom_step zoom_in
    constructor
    · rw [le_min_iff]
      constructor <;> linarith
    · exact min_le_right _ _
  | zout =>
    unfold zoom_step zoom_out
    constructor
    · exact le_max_right _ _
    · rw [max_le_iff]
      refine ⟨?_, by norm_num⟩
      rw [div_le_iff₀ (by norm_num : (0 : ℚ) < 1.2)]
      linarith
  | zreset => norm_num [zoom_step]

theorem zoom_foldl_bounds (cmds : List ZoomCmd) :
    ∀ {z : ℚ}, 0.2 ≤ z → z ≤ 5.0 →
      0.2 ≤ cmds.foldl zoom_step z ∧ cmds.foldl zoom_step z ≤ 5.0 := by
  induction cmds with
  | nil => exact fun h1 h2 => ⟨h1, h2⟩
  | cons c cs ih =>
    intro z h1 h2
    have hb := zoom_step_bounds h1 h2 c
    exact ih hb.1 hb.2

/-- C5: starting from the initial zoom factor 1.0, any finite sequence of
zoom-in, zoom-out and reset actions leaves the zoom factor within the
closed interval from 0.2 to 5.0, so repeated zoom-in never exceeds 5.0
and repeated zoom-out never drops below 0.2. -/
theorem claim_C5_zoom_always_clamped :
    ∀ cmds : List ZoomCmd,
      0.2 ≤ zoom_after cmds ∧ zoom_after cmds ≤ 5.0 :=
  fun cmds => zoom_foldl_bounds cmds (by norm_num) (by norm_num)

/- ======================= Zone store (section 4.7) ======================= -/

/-- The editor's zone store: the frames_data list and the
selected_frame_index of FrameEditorGUI. -/
structure Store where
  frames : List Zone
  selected : ℕ
deriving DecidableEq

/-- Embedding of delete_frame (src/frame_constructor_GUI.py lines
723-737): a silent no-op on an empty store; otherwise, once the operator
confirms, remove the selected entry (Python del, in range whenever the
selection invariant selected less than length holds, which every mutator
of the GUI maintains) and re-clamp the selection against the shortened
list: keep it if still in range, else set it to max(0, new length - 1),
which over the natural numbers is new length - 1. -/
def delete_frame (confirm : Bool) (s : Store) : Store :=
  if s.frames.isEmpty then s
  else if confirm then
    let fs := s.frames.eraseIdx s.selected
    { frames := fs,
      selected := if fs.length ≤ s.selected then fs.length - 1 else s.selected }
  else s

/-- Embedding of select_frame (src/frame_constructor_GUI.py lines
593-599): change the selection only when the index is inside the current
bounds, otherwise do nothing. -/
def select_frame (s : Store) (index : ℕ) : Store :=
  if index < s.frames.length then { s with selected := index } else s

/-- The numeric fields dispatched on var_name by update_frame_data
(src/frame_constructor_GUI.py lines 679-695). -/
inductive EditField
  | top_left_x | top_left_y | bottom_right_x | bottom_right_y | rotation

/-- Embedding of the field write of update_frame_data on the selected
zone record. -/
def apply_edit (f : EditField) (v : ℤ) (z : Zone) : Zone :=
  match f with
  | .top_left_x => { z with top_left := (v, z.top_left.2) }
  | .top_left_y => { z with top_left := (z.top_left.1, v) }
  | .bottom_right_x => { z with bottom_right := (v, z.bottom_right.2) }
  | .bottom_right_y => { z with bottom_right := (z.bottom_right.1, v) }
  | .rotation => { z with rotation := v }

/-- Embedding of the edit handlers on_slider_change and on_textbox_change
(src/frame_constructor_GUI.py lines 634-677): both return without
touching the store when frames_data is empty or the selected index is out
of range, which is exactly when the lookup below yields nothing;
otherwise they write the edited field of the selected zone back. -/
def update_frame_field (s : Store) (f : EditField) (v : ℤ) : Store :=
  match s.frames[s.selected]? with
  | none => s
  | some z => { s with frames := s.frames.set s.selected (apply_edit f v z) }

/-- Embedding of on_name_change (src/frame_constructor_GUI.py lines
628-632), guarded by the same emptiness and range test. -/
def update_name (s : Store) (n : String) : Store :=
  match s.frames[s.selected]? with
  | none => s
  | some z => { s with frames := s.frames.set s.selected { z with name := n } }

/-- C7: deleting the last remaining zone empties the store; on an empty
store a delete, a select and every numeric or name edit are silent
no-ops, not failures; and a confirmed delete on a non-empty store with a
valid selection shortens the list by one and re-clamps the selection to
the new valid range, keeping the same index when still valid and
otherwise taking the last valid index. -/
theorem claim_C7_store_delete_and_empty_noops (s : Store) (z : Zone) :
    (delete_frame true { frames := [z], selected := 0 } =
      { frames := [], selected := 0 }) ∧
    (s.frames = [] →
      delete_frame true s = s ∧
      (∀ i, select_frame s i = s) ∧
      (∀ f v, update_frame_field s f v = s) ∧
      (∀ n, update_name s n = s)) ∧
    (s.frames ≠ [] → s.selected < s.frames.length →
      (delete_frame true s).frames.length = s.frames.length - 1 ∧
      (delete_frame true s).selected =
        (if s.selected < s.frames.length - 1 then s.selected
         else s.frames.length - 1 - 1) ∧
      ((delete_frame true s).frames ≠ [] →
        (delete_frame true s).selected <
            (delete_frame true s).frames.length ∧
        ((delete_frame true s).selected = s.selected ∨
          (delete_frame true s).selected =
            (delete_frame true s).frames.length - 1))) := by
  obtain ⟨frames, selected⟩ := s
  refine ⟨rfl, ?_, ?_⟩
  · rintro rfl
    refine ⟨rfl, fun i => ?_, fun f v => ?_, fun n => ?_⟩
    · simp [select_frame]
    · rfl
    · rfl
  · intro hne hsel
    have hlen : (frames.eraseIdx selected).length = frames.length - 1 := by
      rw [List.length_eraseIdx]
      simp [hsel]
    have hempty : frames.isEmpty = false := by
      simp [List.isEmpty_iff, hne]
    constructor
    · simp only [delete_frame, hempty, Bool.false_eq_true, if_false, if_true]
      exact hlen
    constructor
    · simp only [delete_frame, hempty, Bool.false_eq_true, if_false, if_true]
      rw [hlen]
      rcases Nat.lt_or_ge selected (frames.length - 1) with hlt | hge
      · rw [if_neg (by omega), if_pos hlt]
      · rw [if_pos (by omega), if_neg (by omega)]
    · intro hne2
      simp only [delete_frame, hempty, Bool.false_eq_true, if_false,
        if_true] at hne2 ⊢
      have hpos : 0 < (frames.eraseIdx selected).length := by
        cases hfs : frames.eraseIdx selected with
        | nil => rw [hfs] at hne2; simp at hne2
        | cons a l => simp [hfs]
      rw [hlen] at hpos ⊢
      split
      · omega
      · constructor
        · omega
        · omega

/-- Witness for C7: a confirmed delete at selection 1 of a two-zone store
shortens the list to one zone and clamps the selection to index 0. -/
theorem claim_C7_witness :
    (delete_frame true
        { frames := [⟨"A", (0, 0), (1, 1), 0, none⟩,
                     ⟨"B", (2, 2), (3, 3), 0, none⟩],
          selected := 1 }).frames.length = 1 ∧
    (delete_frame true
        { frames := [⟨"A", (0, 0), (1, 1), 0, none⟩,
                     ⟨"B", (2, 2), (3, 3), 0, none⟩],
          selected := 1 }).selected = 0 := by
  have h := (claim_C7_store_delete_and_empty_noops
    { frames := [⟨"A", (0, 0), (1, 1), 0, none⟩,
                 ⟨"B", (2, 2), (3, 3), 0, none⟩], selected := 1 }
    ⟨"A", (0, 0), (1, 1), 0, none⟩).2.2
    (List.cons_ne_nil _ _) (by simp)
  exact ⟨h.1, by rw [h.2.1]; simp⟩

/- =================== Overlay compositor (section 4.3) =================== -/

/-- A pixel location of the raster. -/
abbrev Pix := ℕ × ℕ

/-- One pixel's color: a 3-channel value in the video's BGR order, with
exact rational channels standing for the float arithmetic that
cv2.addWeighted performs. -/
abbrev Color3 := ℚ × ℚ × ℚ

/-- A raster frame as a per-pixel color map. -/
abbrev Image := Pix → Color3

/-- One drawing primitive's effect: every pixel of its footprint mask is
set to the given color, the rest of the image is kept. -/
def setMask (m : Pix → Bool) (c : Color3) (img : Image) : Image :=
  fun p => if m p then c else img p

/-- Per-pixel weighted sum of two frames, the semantics of
cv2.addWeighted with weights a and b and zero offset. -/
def addWeighted (img1 : Image) (a : ℚ) (img2 : Image) (b : ℚ) : Image :=
  fun p =>
    (a * (img1 p).1 + b * (img2 p).1,
     a * (img1 p).2.1 + b * (img2 p).2.1,
     a * (img1 p).2.2 + b * (img2 p).2.2)

/-- The footprints of OpenCV's rasterizers, abstracted: which pixels
cv2.polylines (at a given thickness), cv2.fillPoly, and cv2.putText (at a
given stroke thickness) touch for a given zone. The compositor theorems
hold for every footprint assignment, since the corner geometry reaches
the raster only through these cv2 internals. -/
structure Raster where
  polyline : Zone → ℕ → Pix → Bool
  fill : Zone → Pix → Bool
  text : Zone → ℕ → Pix → Bool

/-- The color value main.py hands to the cv2 drawing calls: the zone's
color entry. A null color would make cv2 raise and is unreachable in the
playback path because load_config colors every zone first; the null
branch here is a placeholder for that unreachable case. -/
def zone_color (z : Zone) : Color3 :=
  match z.color with
  | some (b, g, r) => ((b : ℚ), (g : ℚ), (r : ℚ))
  | none => (0, 0, 0)

/-- The per-zone body of the loop of draw_frame_overlays (src/main.py
lines 106-125): outline (cv2.polylines, thickness 3), fill
(cv2.fillPoly), and the two putText label strokes (white at thickness 2,
then black at thickness 1) are all drawn onto the working copy named
overlay, in that order. -/
def draw_zone_on_overlay (R : Raster) (ov : Image) (z : Zone) : Image :=
  setMask (R.text z 1) (0, 0, 0)
    (setMask (R.text z 2) (255, 255, 255)
      (setMask (R.fill z) (zone_color z)
        (setMask (R.polyline z 3) (zone_color z) ov)))

/-- Embedding of draw_frame_overlays (src/main.py lines 102-129): start
from a copy of the input frame, run the per-zone drawing loop on that
copy in zone order, and finish with the single whole-frame blend
cv2.addWeighted(image, 0.7, overlay, 0.3, 0). -/
def draw_frame_overlays (R : Raster) (image : Image)
    (frames_config : List Zone) : Image :=
  addWeighted image 0.7 (frames_config.foldl (draw_zone_on_overlay R) image) 0.3

/-- The color the GUI compositor uses: frame_data.get with a white
default (src/frame_constructor_GUI.py line 518). -/
def gui_zone_color (z : Zone) : Color3 :=
  match z.color with
  | some (b, g, r) => ((b : ℚ), (g : ℚ), (r : ℚ))
  | none => (255, 255, 255)

/-- Embedding of draw_frame_overlay (src/frame_constructor_GUI.py lines
513-543), the editor's per-zone compositor: outline directly on the
image (yellow at thickness 4 when selected, the zone's color at
thickness 2 otherwise), fill on a fresh copy of the outlined image, then
a per-zone blend cv2.addWeighted(overlay, 0.3, image, 0.7, 0, image),
and finally the two label strokes on the blended image. -/
def draw_frame_overlay (R : Raster) (image : Image) (z : Zone)
    (is_selected : Bool) : Image :=
  let line_color : Color3 :=
    if is_selected then (255, 255, 0) else gui_zone_color z
  let thickness : ℕ := if is_selected then 4 else 2
  let outlined := setMask (R.polyline z thickness) line_color image
  let overlay := setMask (R.fill z) (gui_zone_color z) outlined
  let blended := addWeighted overlay 0.3 outlined 0.7
  setMask (R.text z 1) (0, 0, 0)
    (setMask (R.text z 2) (255, 255, 255) blended)

/-- The compositor that claim C2 describes, formalised from the claim's
words for comparison with the source: zone outlines drawn directly on
the output buffer, filled polygons accumulated on a separate working
copy across all zones, then a single whole-frame per-pixel blend of 0.7
times the original-with-outlines plus 0.3 times the filled copy, with
the labels drawn after the blend. -/
def claimed_compositor (R : Raster) (image : Image)
    (frames_config : List Zone) : Image :=
  let outlined := frames_config.foldl
    (fun img z => setMask (R.polyline z 3) (zone_color z) img) image
  let filled := frames_config.foldl
    (fun img z => setMask (R.fill z) (zone_color z) img) image
  let blended := addWeighted outlined 0.7 filled 0.3
  frames_config.foldl
    (fun img z =>
      setMask (R.text z 1) (0, 0, 0)
        (setMask (R.text z 2) (255, 255, 255) img)) blended

/-- A rasterizer for the counterexample: empty polyline and fill
footprints, and a label footprint covering every pixel. -/
def cexRaster : Raster where
  polyline := fun _ _ _ => false
  fill := fun _ _ => false
  text := fun _ _ _ => true

/-- A uniform gray test frame. -/
def cexImage : Image := fun _ => (100, 100, 100)

/-- A single concrete zone for the counterexample. -/
def cexZone : Zone := ⟨"Z", (0, 0), (4, 4), 0, some (10, 20, 30)⟩

/-- Counterexample to C2 as stated: in main.py the labels are drawn onto
the working copy before the blend, so a pixel covered by a label comes
out as 0.7 times gray plus 0.3 times black, namely (70,70,70), while the
claimed compositor paints it pure black after the blend. -/
theorem claim_C2_counterexample :
    draw_frame_overlays cexRaster cexImage [cexZone] (0, 0) ≠
      claimed_compositor cexRaster cexImage [cexZone] (0, 0) := by
  simp only [draw_frame_overlays, claimed_compositor, draw_zone_on_overlay,
    setMask, addWeighted, cexRaster, cexImage, cexZone, List.foldl,
    Prod.mk.injEq]
  norm_num

theorem foldl_overlay_untouched (R : Raster) (zones : List Zone) (p : Pix)
    (h : ∀ z ∈ zones, R.polyline z 3 p = false ∧ R.fill z p = false ∧
      R.text z 2 p = false ∧ R.text z 1 p = false) :
    ∀ img : Image, (zones.foldl (draw_zone_on_overlay R) img) p = img p := by
  induction zones with
  | nil => intro img; rfl
  | cons z zs ih =>
    intro img
    have hz := h z (List.mem_cons_self z zs)
    have hrest := fun w hw => h w (List.mem_cons_of_mem z hw)
    rw [List.foldl_cons, ih hrest]
    simp [draw_zone_on_overlay, setMask, hz.1, hz.2.1, hz.2.2.1, hz.2.2.2]

/-- C2 amended: in main.py's playback compositor the outlines, fills and
both label strokes all accumulate on one working copy in zone order, and
the output is produced by a single whole-frame per-pixel blend of 0.7
times the original frame plus 0.3 times that copy; the blend happens
once per frame, not once per zone, but the labels are blended too and
the outlines are not drawn on the unblended output buffer; a pixel
outside every zone's footprints is returned unchanged. -/
theorem claim_C2_single_blend_of_working_copy :
    (∀ (R : Raster) (image : Image) (zones : List Zone) (p : Pix),
        draw_frame_overlays R image zones p =
          addWeighted image 0.7
            (zones.foldl (draw_zone_on_overlay R) image) 0.3 p) ∧
    (∀ (R : Raster) (image : Image) (zones : List Zone) (p : Pix),
        (∀ z ∈ zones, R.polyline z 3 p = false ∧ R.fill z p = false ∧
            R.text z 2 p = false ∧ R.text z 1 p = false) →
          draw_frame_overlays R image zones p = image p) := by
  refine ⟨fun R image zones p => rfl, fun R image zones p h => ?_⟩
  unfold draw_frame_overlays addWeighted
  rw [foldl_overlay_untouched R zones p h image]
  rcases himg : image p with ⟨c1, c2, c3⟩
  simp only [Prod.mk.injEq]
  refine ⟨by ring, by ring, by ring⟩

/-- Witness for the amended C2 at a concrete frame and rasterizer with an
empty zone list, where the footprint hypothesis holds vacuously. -/
theorem claim_C2_witness :
    draw_frame_overlays cexRaster cexImage [] (0, 0) = cexImage (0, 0) :=
  claim_C2_single_blend_of_working_copy.2 cexRaster cexImage [] (0, 0)
    (by simp)

/- =========== Playback loop and state machine (section 4.6) =========== -/

/-- Embedding of the per-zone display scaling of play_video (src/main.py
lines 269-277): a copy of the zone record whose top_left and bottom_right
are scaled by the window-to-video factors and truncated with int();
every other field of the copy is carried over unchanged. -/
def scale_zone (scale_x scale_y : ℚ) (z : Zone) : Zone :=
  { z with
    top_left := (int_trunc ((z.top_left.1 : ℚ) * scale_x),
                 int_trunc ((z.top_left.2 : ℚ) * scale_y)),
    bottom_right := (int_trunc ((z.bottom_right.1 : ℚ) * scale_x),
                     int_trunc ((z.bottom_right.2 : ℚ) * scale_y)) }

/-- The scaled_frames_config list built afresh inside every display
iteration of the playback loop. -/
def scaled_frames_config (scale_x scale_y : ℚ) (zones : List Zone) :
    List Zone :=
  zones.map (scale_zone scale_x scale_y)

/-- The mutable state of the playback loop of play_video (src/main.py
lines 235-353): the paused flag, the frame counter, the capture's read
position, the current frame variable (None before the first read and
after a failed step read), the overlay toggle, the zone list
frames_config, and the display buffer last shown. -/
structure PlayState where
  paused : Bool
  frame_count : ℕ
  pos : ℕ
  frameBuf : Option Image
  show_overlays : Bool
  zones : List Zone
  display : Image

/-- The keyboard commands the loop reacts to (q, p, s, r, f) plus any
other key. -/
inductive Key | q | p | s | r | f | other

/-- How a run of the playback loop ends: the stream is exhausted while
playing (the end-of-video break), the user quits, the display phase
crashes on a missing frame (frame.copy() on None raises an
AttributeError in Python), or the supplied key script runs out. -/
inductive Outcome
  | ended (st : PlayState)
  | quit (st : PlayState)
  | crashed (st : PlayState)
  | out_of_keys (st : PlayState)

/-- One iteration's read-and-display phase either continues with a new
state or halts the loop. -/
inductive IterResult
  | cont (st : PlayState)
  | halt (o : Outcome)

/-- The display phase of one loop iteration (src/main.py lines 257-283):
display_frame starts as a copy of the current frame variable, which
crashes when that variable is None; with a window size configured the
frame is resized and, when overlays are on and zones exist, the overlays
are composited from the scaled display copies of the zones. The resize
resampling and the info text are outside the model; neither touches the
zone list. -/
def display_phase (R : Raster) (scale_x scale_y : ℚ) (st : PlayState) :
    IterResult :=
  match st.frameBuf with
  | none => .halt (.crashed st)
  | some fr =>
    let disp : Image :=
      if st.show_overlays then
        if st.zones.isEmpty then fr
        else draw_frame_overlays R fr (scaled_frames_config scale_x scale_y st.zones)
      else fr
    .cont { st with display := disp }

/-- One arrival at the top of the while loop (src/main.py lines 246-258):
when not paused, read the next frame, breaking out with the end-of-video
message when the stream is exhausted; then the display phase. -/
def loop_iter (R : Raster) (video : List Image) (scale_x scale_y : ℚ)
    (st : PlayState) : IterResult :=
  if st.paused then display_phase R scale_x scale_y st
  else
    match video[st.pos]? with
    | some fr =>
      display_phase R scale_x scale_y
        { st with
            frameBuf := some fr
            frame_count := st.frame_count + 1
            pos := st.pos + 1 }
    | none => .halt (.ended st)

/-- The key handling at the bottom of the loop (src/main.py lines
324-353): p toggles pause; s, accepted only while paused, reads one more
frame — on success the counter advances and the position moves, while on
failure cap.read still rebinds the frame variable, to None; r seeks the
capture to frame 0, resets the counter and resumes playing; f toggles
the overlay flag; any other key does nothing (q is handled by the loop
itself). -/
def handle_key (video : List Image) (k : Key) (st : PlayState) :
    PlayState :=
  match k with
  | .p => { st with paused := !st.paused }
  | .s =>
    if st.paused then
      match video[st.pos]? with
      | some fr =>
        { st with
            frameBuf := some fr
            frame_count := st.frame_count + 1
            pos := st.pos + 1 }
      | none => { st with frameBuf := none }
    else st
  | .r => { st with pos := 0, frame_count := 0, paused := false }
  | .f => { st with show_overlays := !st.show_overlays }
  | .q => st
  | .other => st

/-- The playback loop driven by a finite script of keys, one per
cv2.waitKey poll: each iteration runs the read-and-display phase, then
consumes the next key, with q breaking out of the loop. -/
def play_loop (R : Raster) (video : List Image) (scale_x scale_y : ℚ) :
    List Key → PlayState → Outcome
  | [], st =>
    match loop_iter R video scale_x scale_y st with
    | .halt o => o
    | .cont st1 => .out_of_keys st1
  | k :: rest, st =>
    match loop_iter R video scale_x scale_y st with
    | .halt o => o
    | .cont st1 =>
      match k with
      | .q => .quit st1
      | _ => play_loop R video scale_x scale_y rest (handle_key video k st1)

/-- The state in which play_video enters its loop (src/main.py lines
235-237): playing, counter 0, capture at position 0, no frame variable
bound yet, overlays as configured by draw_frames. -/
def init_state (draw_frames : Bool) (frames_config : List Zone) :
    PlayState :=
  { paused := false, frame_count := 0, pos := 0, frameBuf := none,
    show_overlays := draw_frames, zones := frames_config,
    display := fun _ => (0, 0, 0) }

/-- Outcome classifier for the crash evaluation. -/
def Outcome.isCrashed : Outcome → Bool
  | .crashed _ => true
  | _ => false

/-- The loop state an outcome carries. -/
def Outcome.state : Outcome → PlayState
  | .ended st => st
  | .quit st => st
  | .crashed st => st
  | .out_of_keys st => st

/-- C6, evaluated at the failing input: a one-frame video played to its
last frame, paused with p, then stepped with s when no frame remains.
The step's cap.read rebinds the frame variable to None, and the next
arrival at the display phase crashes on frame.copy() instead of reaching
the Ended outcome that the claim describes. -/
theorem claim_C6_step_past_end_crashes :
    (play_loop cexRaster [cexImage] 1 1 [Key.p, Key.s]
        (init_state false [])).isCrashed = true := rfl

/-- The zone list carried by an iteration result. -/
def IterResult.stZones : IterResult → List Zone
  | .cont st => st.zones
  | .halt o => o.state.zones

theorem handle_key_zones (video : List Image) (k : Key) (st : PlayState) :
    (handle_key video k st).zones = st.zones := by
  cases k with
  | q => rfl
  | p => rfl
  | s =>
    simp only [handle_key]
    split
    · split <;> rfl
    · rfl
  | r => rfl
  | f => rfl
  | other => rfl

theorem loop_iter_zones (R : Raster) (video : List Image)
    (scale_x scale_y : ℚ) (st : PlayState) :
    (loop_iter R video scale_x scale_y st).stZones = st.zones := by
  unfold loop_iter display_phase
  split
  · split <;> rfl
  · split
    · split <;> rfl
    · rfl

theorem play_loop_zones (R : Raster) (video : List Image)
    (scale_x scale_y : ℚ) (keys : List Key) :
    ∀ st : PlayState,
      ((play_loop R video scale_x scale_y keys st).state).zones =
        st.zones := by
  induction keys with
  | nil =>
    intro st
    have h := loop_iter_zones R video scale_x scale_y st
    unfold play_loop
    cases hit : loop_iter R video scale_x scale_y st with
    | halt o =>
      rw [hit] at h
      simpa [IterResult.stZones] using h
    | cont st1 =>
      rw [hit] at h
      simpa [IterResult.stZones, Outcome.state] using h
  | cons k rest ih =>
    intro st
    have h := loop_iter_zones R video scale_x scale_y st
    unfold play_loop
    cases hit : loop_iter R video scale_x scale_y st with
    | halt o =>
      rw [hit] at h
      simpa [IterResult.stZones] using h
    | cont st1 =>
      rw [hit] at h
      simp only [IterResult.stZones] at h
      cases k with
      | q => simpa [Outcome.state] using h
      | p => rw [ih, handle_key_zones]; exact h
      | s => rw [ih, handle_key_zones]; exact h
      | r => rw [ih, handle_key_zones]; exact h
      | f => rw [ih, handle_key_zones]; exact h
      | other => rw [ih, handle_key_zones]; exact h

/-- C9: the playback display scaling operates on per-frame copies only:
a scaled copy keeps the zone's name, rotation and color and scales only
the two endpoint coordinates, and a run of the playback loop — over any
rasterizer, video, scale factors, key script and starting state — leaves
the zone list stored in the state unchanged, so the scaling never writes
back into the zone store. -/
theorem claim_C9_scaling_never_writes_store :
    (∀ (scale_x scale_y : ℚ) (z : Zone),
        (scale_zone scale_x scale_y z).name = z.name ∧
        (scale_zone scale_x scale_y z).rotation = z.rotation ∧
        (scale_zone scale_x scale_y z).color = z.color ∧
        (scale_zone scale_x scale_y z).top_left =
          (int_trunc ((z.top_left.1 : ℚ) * scale_x),
           int_trunc ((z.top_left.2 : ℚ) * scale_y)) ∧
        (scale_zone scale_x scale_y z).bottom_right =
          (int_trunc ((z.bottom_right.1 : ℚ) * scale_x),
           int_trunc ((z.bottom_right.2 : ℚ) * scale_y))) ∧
    (∀ (R : Raster) (video : List Image) (scale_x scale_y : ℚ)
        (keys : List Key) (st : PlayState),
        ((play_loop R video scale_x scale_y keys st).state).zones =
          st.zones) :=
  ⟨fun _ _ _ => ⟨rfl, rfl, rfl, rfl, rfl⟩,
   fun R video scale_x scale_y keys st =>
     play_loop_zones R video scale_x scale_y keys st⟩

/- =========== Persisted configuration round-trip (section 3) =========== -/

/-- JSON values as Python's json module produces and consumes them,
restricted to the value kinds the frames array uses. Modelled from the
spec: save_config (src/frame_constructor_GUI.py lines 75-88) and
load_config (lines 66-73) delegate the on-disk format to json.dump and
json.load of the Python standard library, which are outside src/; the
schema of spec section 3 fixes the shape written here. -/
inductive JVal
  | jnull
  | jint (n : ℤ)
  | jstr (s : String)
  | jarr (elems : List JVal)

/-- One zone as the JSON object (an ordered key-value list, as a Python
dict) that save_config writes into the frames array. -/
def zone_to_json (z : Zone) : List (String × JVal) :=
  [("name", .jstr z.name),
   ("top_left", .jarr [.jint z.top_left.1, .jint z.top_left.2]),
   ("bottom_right",
     .jarr [.jint z.bottom_right.1, .jint z.bottom_right.2]),
   ("rotation", .jint z.rotation),
   ("color",
     match z.color with
     | none => .jnull
     | some (b, g, r) => .jarr [.jint b, .jint g, .jint r])]

/-- Key lookup in a JSON object, as Python dict indexing after
json.load. -/
def jlookup (fields : List (String × JVal)) (k : String) : Option JVal :=
  (fields.find? (fun kv => kv.1 = k)).map (fun kv => kv.2)

/-- Reading one zone record back from its JSON object, per the schema of
spec section 3. Modelled from the spec: the parsing itself lives in the
json standard library, outside src/. -/
def zone_of_json (f : List (String × JVal)) : Option Zone :=
  match jlookup f "name", jlookup f "top_left", jlookup f "bottom_right",
      jlookup f "rotation", jlookup f "color" with
  | some (.jstr n), some (.jarr [.jint x1, .jint y1]),
      some (.jarr [.jint x2, .jint y2]), some (.jint r), some c =>
    match c with
    | .jnull => some ⟨n, (x1, y1), (x2, y2), r, none⟩
    | .jarr [.jint b, .jint g, .jint rr] =>
      some ⟨n, (x1, y1), (x2, y2), r, some (b, g, rr)⟩
    | _ => none
  | _, _, _, _, _ => none

/-- The frames array that save_config writes: one JSON object per zone,
in store order. -/
def frames_to_json (zs : List Zone) : List (List (String × JVal)) :=
  zs.map zone_to_json

/-- The frames array as read back: every entry must parse, else the
whole load fails, as a json.JSONDecodeError aborts load_config. -/
def frames_of_json : List (List (String × JVal)) → Option (List Zone)
  | [] => some []
  | f :: fs =>
    match zone_of_json f, frames_of_json fs with
    | some z, some zs => some (z :: zs)
    | _, _ => none

theorem zone_round_trip (z : Zone) :
    zone_of_json (zone_to_json z) = some z := by
  obtain ⟨n, ⟨x1, y1⟩, ⟨x2, y2⟩, r, c⟩ := z
  rcases c with _ | ⟨b, g, rr⟩ <;> rfl

/-- C4: saving the zone list and loading it back reproduces an identical
list — same name, endpoints, rotation and color for every zone, in the
same order; the save-then-load round trip is the identity on the frames
array. -/
theorem claim_C4_save_load_round_trip :
    ∀ zs : List Zone, frames_of_json (frames_to_json zs) = some zs := by
  intro zs
  induction zs with
  | nil => rfl
  | cons z zs ih =>
    simp only [frames_to_json, List.map_cons, frames_of_json]
    rw [zone_round_trip, show frames_of_json (zs.map zone_to_json) = some zs
      from ih]
